import Mathlib

/-!
Verification development for the prison capacity/population extraction
pipeline (`functions/file_scraping_functions.py` and
`functions/processing_data_functions.py`).

Text is modelled as `List Char`.  Python's float comparisons on small
rationals are modelled with exact rational/natural arithmetic, and
`pandas` NaN / missing cells are modelled as `Option.none`.
-/

/-! ## Basic character and string helpers (Python semantics on ASCII text) -/

/-- Whitespace characters recognised by Python's `str.strip` / `str.split`
(ASCII range: space, tab, newline, carriage return, vertical tab, form feed). -/
def isPyWs (c : Char) : Bool :=
  c = ' ' || c = '\t' || c = '\n' || c = '\r' || c = Char.ofNat 11 || c = Char.ofNat 12

/-- Python `str.strip()`: drop leading and trailing whitespace. -/
def stripCh (l : List Char) : List Char :=
  ((l.dropWhile isPyWs).reverse.dropWhile isPyWs).reverse

/-- Auxiliary scanner for `splitWsCh`. -/
def splitWsAux : List Char → List Char → List (List Char)
  | [], acc => if acc.isEmpty then [] else [acc.reverse]
  | c :: rest, acc =>
    if isPyWs c then
      if acc.isEmpty then splitWsAux rest [] else acc.reverse :: splitWsAux rest []
    else splitWsAux rest (c :: acc)

/-- Python `str.split()` with no argument: split on runs of whitespace,
discarding empty fields. -/
def splitWsCh (l : List Char) : List (List Char) := splitWsAux l []

/-- Auxiliary scanner for `splitWs2`: `acc` is the current field (reversed),
`pend` holds a single not-yet-classified whitespace character, `insep` says we
are inside a separator run of two or more whitespace characters. -/
def splitWs2Aux : List Char → List Char → Option Char → Bool → List (List Char)
  | [], acc, pend, insep =>
    if insep then [[]]
    else [(match pend with | some w => w :: acc | none => acc).reverse]
  | c :: rest, acc, pend, insep =>
    if isPyWs c then
      if insep then splitWs2Aux rest [] none true
      else
        match pend with
        | none => splitWs2Aux rest acc (some c) false
        | some _ => acc.reverse :: splitWs2Aux rest [] none true
    else
      if insep then splitWs2Aux rest [c] none false
      else
        match pend with
        | none => splitWs2Aux rest (c :: acc) none false
        | some w => splitWs2Aux rest (c :: w :: acc) none false

/-- Python `re.split` on the pattern of two or more whitespace characters:
maximal whitespace runs of length at least two separate fields, a single
whitespace character stays inside its field. -/
def splitWs2 (l : List Char) : List (List Char) := splitWs2Aux l [] none false

/-- Python substring test `pat in s`. -/
def chContains (pat : List Char) : List Char → Bool
  | [] => pat.isEmpty
  | c :: rest => pat.isPrefixOf (c :: rest) || chContains pat rest

/-- Fuelled scanner for `countOccs`; the fuel starts at the text length and
each step consumes at least one character, so the fuel never runs out. -/
def countOccsFuel (pat : List Char) : Nat → List Char → Nat
  | 0, _ => 0
  | fuel + 1, l =>
    match l with
    | [] => 0
    | c :: rest =>
      if pat ≠ [] ∧ pat.isPrefixOf (c :: rest) then
        1 + countOccsFuel pat fuel ((c :: rest).drop pat.length)
      else
        countOccsFuel pat fuel rest

/-- Python `str.count`: number of non-overlapping occurrences, scanning left
to right. -/
def countOccs (pat : List Char) (l : List Char) : Nat :=
  countOccsFuel pat l.length l

/-- ASCII lower-casing of one character (model of Python `str.lower` on the
ASCII filenames and text handled by the pipeline). -/
def toLowerCh (c : Char) : Char :=
  if 'A' ≤ c ∧ c ≤ 'Z' then Char.ofNat (c.toNat + 32) else c

/-- ASCII lower-casing of a character list. -/
def lowerList (l : List Char) : List Char := l.map toLowerCh

/-- Python `text.split(sep)` for a one-character separator. -/
def splitLines (l : List Char) : List (List Char) := List.splitOn '\n' l

/-- First character of a token is an ASCII decimal digit (Python
`re.match` of a digit at the start). -/
def firstIsDigit : List Char → Bool
  | [] => false
  | c :: _ => c.isDigit

/-- First character of a line is an ASCII letter (Python `re.match` of the
class A-Za-z at the start). -/
def startsAlpha : List Char → Bool
  | [] => false
  | c :: _ => c.isAlpha

/-! ## Text Validity Oracle (`is_valid_doc_text`, lines 395-451) -/

/-- Number of characters of `text` that are non-ASCII or control characters
other than newline, tab and carriage return (source line 409). -/
def nonAsciiCount (text : List Char) : Nat :=
  (text.filter (fun c =>
    127 < c.toNat || (c.toNat < 32 && !(c = '\n' || c = '\t' || c = '\r')))).length

/-- The suspicious corruption signature `@Unknown`. -/
def patAtUnknown : List Char := "@Unknown".toList

/-- The suspicious corruption signature `Times N`. -/
def patTimesN : List Char := "Times N".toList

/-- The suspicious corruption signature: a lone null byte. -/
def patNull : List Char := [Char.ofNat 0]

/-- The suspicious corruption signature: closing brace, null byte, opening
brace. -/
def patBraceNull : List Char := [Char.ofNat 125, Char.ofNat 0, Char.ofNat 123]

/-- Count of vendor-boilerplate markers `Microsoft Word` plus
`Microsoft Office` (source lines 423-424). -/
def msPatternCount (text : List Char) : Nat :=
  countOccs ("Microsoft Word".toList) text + countOccs ("Microsoft Office".toList) text

/-- Some corruption signature occurs in the text (source lines 414-419). -/
def hasSuspicious (text : List Char) : Bool :=
  chContains patAtUnknown text || chContains patTimesN text ||
    chContains patNull text || chContains patBraceNull text

/-- The fixed domain keyword vocabulary of the oracle (source lines 430-437);
the membership test in the source is case-sensitive. -/
def prisonKeywords : List (List Char) :=
  ["Prison".toList, "CNA".toList, "Capacity".toList, "Population".toList,
   "Report Date".toList, "Operational".toList]

/-- At least one domain keyword occurs (case-sensitively) in the text. -/
def hasPrisonKeyword (text : List Char) : Bool :=
  prisonKeywords.any (fun kw => chContains kw text)

/-- Backtracking matcher for one-or-more repetitions of a character class
followed by a continuation, used to embed the data-shape regex. -/
def matchClassPlus (cls : Char → Bool) (k : List Char → Bool) : List Char → Bool
  | [] => false
  | c :: rest => cls c && (k rest || matchClassPlus cls k rest)

/-- Characters of the class letters-or-whitespace used by the data-shape
regex. -/
def isAlphaSpace (c : Char) : Bool := c.isAlpha || isPyWs c

/-- Match of the data-shape regex (a letter, then one or more
letters/whitespace, then whitespace, digits, whitespace, digits) at the start
of a line (source line 445). -/
def dataLikeMatch : List Char → Bool
  | [] => false
  | c :: rest =>
    c.isAlpha &&
      matchClassPlus isAlphaSpace (fun r1 =>
        matchClassPlus isPyWs (fun r2 =>
          matchClassPlus Char.isDigit (fun r3 =>
            matchClassPlus isPyWs (fun r4 =>
              matchClassPlus Char.isDigit (fun _ => true) r4) r3) r2) r1) rest

/-- Number of lines of the text matching the data-shape regex (source
line 446). -/
def dataLikeCount (text : List Char) : Nat :=
  ((splitLines text).filter dataLikeMatch).length

/-- Embedding of `is_valid_doc_text` (source lines 395-451).  The float
comparison `count / len > 0.20` is modelled exactly as `5 * count > len`. -/
def is_valid_doc_text (text : List Char) : Bool :=
  if text.length < 100 then false
  else if text.length < 5 * nonAsciiCount text then false
  else if 3 < msPatternCount text || hasSuspicious text then false
  else if hasPrisonKeyword text then true
  else if dataLikeCount text < 5 then false
  else true

/-- Conjunctive characterisation of validity, following the acceptance
conditions stated in the specification (for comparison with the control-flow
definition `is_valid_doc_text` taken from the source). -/
def ValidDocSpec (text : List Char) : Prop :=
  100 ≤ text.length ∧
  5 * nonAsciiCount text ≤ text.length ∧
  msPatternCount text ≤ 3 ∧
  hasSuspicious text = false ∧
  (hasPrisonKeyword text = true ∨ 5 ≤ dataLikeCount text)

/-- C4: `is_valid_doc_text` returns true exactly when the text is at least
100 characters long, at most 20 percent of its characters are
non-printable/non-ASCII, the vendor-boilerplate markers occur at most 3
times, no corruption signature occurs, and either a domain keyword occurs or
at least 5 lines match the name-followed-by-two-numbers shape. -/
theorem c4_is_valid_iff (text : List Char) :
    is_valid_doc_text text = true ↔ ValidDocSpec text := by
  unfold is_valid_doc_text ValidDocSpec
  by_cases h1 : text.length < 100 <;>
    by_cases h2 : text.length < 5 * nonAsciiCount text <;>
      by_cases hms : 3 < msPatternCount text <;>
        by_cases hsus : hasSuspicious text = true <;>
          by_cases hkw : hasPrisonKeyword text = true <;>
            by_cases hdl : dataLikeCount text < 5 <;>
              simp [h1, h2, hms, hsus, hkw, hdl] <;> omega

/-- C10: when the corruption checks pass but none of the six keywords occurs
with the oracle's exact capitalisation and fewer than 5 lines are data-shaped,
the oracle rejects: the domain-keyword test of `is_valid_doc_text` is
case-sensitive. -/
theorem c10_keyword_case_sensitive (text : List Char)
    (hlen : 100 ≤ text.length)
    (hfrac : 5 * nonAsciiCount text ≤ text.length)
    (hms : msPatternCount text ≤ 3)
    (hsus : hasSuspicious text = false)
    (hkw : hasPrisonKeyword text = false)
    (hdl : dataLikeCount text < 5) :
    is_valid_doc_text text = false := by
  unfold is_valid_doc_text
  simp [hsus, hkw, hdl]

/-- Concrete text that mentions prison capacity only in lower case, is long
enough and passes every corruption check. -/
def c10text : List Char :=
  "prison capacity figures for this month are withheld from publication pending checks by the statistics team".toList

set_option maxRecDepth 8192 in
/-- Witness for C10: the concrete lower-case text contains the words prison
capacity yet is rejected by the oracle. -/
theorem c10_keyword_case_sensitive_witness :
    chContains ("prison capacity".toList) c10text = true ∧
      is_valid_doc_text c10text = false :=
  ⟨by decide,
   c10_keyword_case_sensitive c10text (by decide) (by decide) (by decide)
     (by decide) (by decide) (by decide)⟩

/-! ## Date Resolver (`extract_report_date_from_file`, lines 484-625) -/

/-- Last-day-of-month rule used by the filename fallback (source line 587):
28 for February, 30 for April/June/September/November, otherwise 31; no
leap-year correction. -/
def lastDayOfMonth (m : Nat) : Nat :=
  if m = 2 then 28 else if m = 4 ∨ m = 6 ∨ m = 9 ∨ m = 11 then 30 else 31

/-- Month vocabulary of the Date Resolver in source dictionary order
(lines 559-564): full names first, then the abbreviations; `may` has no
separate abbreviation. -/
def monthsMain : List (List Char × Nat) :=
  [("january".toList, 1), ("february".toList, 2), ("march".toList, 3),
   ("april".toList, 4), ("may".toList, 5), ("june".toList, 6),
   ("july".toList, 7), ("august".toList, 8), ("september".toList, 9),
   ("october".toList, 10), ("november".toList, 11), ("december".toList, 12),
   ("jan".toList, 1), ("feb".toList, 2), ("mar".toList, 3), ("apr".toList, 4),
   ("jun".toList, 6), ("jul".toList, 7), ("aug".toList, 8), ("sep".toList, 9),
   ("sept".toList, 9), ("oct".toList, 10), ("nov".toList, 11), ("dec".toList, 12)]

/-- First occurrence of a four-digit year starting `20` in the filename
(the regex search at source line 574); returns the year value and its four
characters. -/
def findYear4 : List Char → Option (Nat × List Char)
  | c1 :: c2 :: c3 :: c4 :: rest =>
    if c1 = '2' ∧ c2 = '0' ∧ c3.isDigit ∧ c4.isDigit then
      some (2000 + 10 * (c3.toNat - 48) + (c4.toNat - 48), [c1, c2, c3, c4])
    else findYear4 (c2 :: c3 :: c4 :: rest)
  | _ => none

/-- Month-then-year arrangement with an optional single separator
(source line 584). -/
def monthYearArr (fname m ys : List Char) (sep : Char) : Bool :=
  chContains (m ++ ys) fname || chContains (m ++ [sep] ++ ys) fname

/-- Year-then-month arrangement with an optional single separator
(source line 591). -/
def yearMonthArr (fname m ys : List Char) (sep : Char) : Bool :=
  chContains (ys ++ m) fname || chContains (ys ++ [sep] ++ m) fname

/-- Isolated month between separators, or at the start or end of the
filename (source line 597). -/
def isolatedMonthArr (fname m : List Char) (sep : Char) : Bool :=
  chContains ([sep] ++ m ++ [sep]) fname || (m ++ [sep]).isPrefixOf fname ||
    ([sep] ++ m).isSuffixOf fname

/-- The two separators tried by the filename scan (source line 582). -/
def monthSeps : List Char := ['-', '_']

/-- Some arrangement of the given month name with the found year matches the
filename; the three arrangement checks are tried per separator in source
order, and every one of them yields the same date, so only the disjunction
matters. -/
def monthMatches (fname ys m : List Char) : Bool :=
  monthSeps.any (fun sep =>
    monthYearArr fname m ys sep || yearMonthArr fname m ys sep ||
      isolatedMonthArr fname m sep)

/-- One iteration of the month loop at source lines 580-599. -/
def tryMonth (fname ys : List Char) (y : Nat) (p : List Char × Nat) :
    Option (Nat × Nat × Nat) :=
  if monthMatches fname ys p.1 then some (y, p.2, lastDayOfMonth p.2) else none

/-- The monthly-bulletin special case (source lines 604-612): both marker
words present, then the first month of the dictionary contained in the
filename, provided a year is also found. -/
def monthlyBulletinDate (fname : List Char) : Option (Nat × Nat × Nat) :=
  if chContains ("monthly".toList) fname ∧ chContains ("bulletin".toList) fname then
    monthsMain.findSome? (fun p =>
      if chContains p.1 fname then
        (findYear4 fname).map (fun q => (q.1, p.2, lastDayOfMonth p.2))
      else none)
  else none

/-- The prison-pop special case (source lines 614-622). -/
def prisonPopDate (fname : List Char) : Option (Nat × Nat × Nat) :=
  if chContains ("prison-pop".toList) fname ∨ chContains ("prison_pop".toList) fname then
    monthsMain.findSome? (fun p =>
      if chContains p.1 fname then
        (findYear4 fname).map (fun q => (q.1, p.2, lastDayOfMonth p.2))
      else none)
  else none

/-- Filename part of the Date Resolver (source lines 556-625), applied to
the lower-cased basename; returns `(year, month, day)`. -/
def extract_date_from_filename (fname : List Char) : Option (Nat × Nat × Nat) :=
  let primary :=
    match findYear4 fname with
    | some (y, ys) => monthsMain.findSome? (tryMonth fname ys y)
    | none => none
  match primary with
  | some d => some d
  | none =>
    match monthlyBulletinDate fname with
    | some d => some d
    | none => prisonPopDate fname

/-- Parse exactly two ASCII digits. -/
def twoDigits : List Char → Option (Nat × List Char)
  | a :: b :: rest =>
    if a.isDigit ∧ b.isDigit then some (10 * (a.toNat - 48) + (b.toNat - 48), rest)
    else none
  | _ => none

/-- Parse exactly four ASCII digits. -/
def fourDigits : List Char → Option (Nat × List Char)
  | a :: b :: c :: d :: rest =>
    if a.isDigit ∧ b.isDigit ∧ c.isDigit ∧ d.isDigit then
      some (1000 * (a.toNat - 48) + 100 * (b.toNat - 48) + 10 * (c.toNat - 48) +
        (d.toNat - 48), rest)
    else none
  | _ => none

/-- Match the tail of the report-date regex (optional whitespace, then
`DD/MM/YYYY`) at the current position; returns `(day, month, year)`. -/
def parseReportDateTail (l : List Char) : Option (Nat × Nat × Nat) :=
  let l1 := l.dropWhile isPyWs
  match twoDigits l1 with
  | some (d, '/' :: r1) =>
    match twoDigits r1 with
    | some (m, '/' :: r2) =>
      match fourDigits r2 with
      | some (y, _) => some (d, m, y)
      | none => none
    | _ => none
  | _ => none

/-- First match of the report-date regex in the text (the `re.search` at
source line 505): the literal `Report Date:` followed by optional whitespace
and a day/month/year group. -/
def findReportDateInText : List Char → Option (Nat × Nat × Nat)
  | [] => none
  | c :: rest =>
    match
      (if ("Report Date:".toList).isPrefixOf (c :: rest) then
        parseReportDateTail ((c :: rest).drop 12)
      else none) with
    | some dmy => some dmy
    | none => findReportDateInText rest

/-- Day count per month with leap years, as validated by Python `strptime`. -/
def daysInMonth (y m : Nat) : Nat :=
  if m = 2 then (if (y % 4 = 0 ∧ y % 100 ≠ 0) ∨ y % 400 = 0 then 29 else 28)
  else if m = 4 ∨ m = 6 ∨ m = 9 ∨ m = 11 then 30 else 31

/-- Validity of a day/month/year triple under `datetime.strptime` with the
day/month/year format (source line 510). -/
def validDMY (d m y : Nat) : Bool :=
  1 ≤ y ∧ 1 ≤ m ∧ m ≤ 12 ∧ 1 ≤ d ∧ d ≤ daysInMonth y m

/-- Content-then-filename chain of the Date Resolver for a document whose
recovered text is `text` and whose lower-cased basename is `fname`
(source lines 497-625): an in-content report date wins when present and
valid, otherwise the filename patterns are scanned. -/
def extract_report_date (text fname : List Char) : Option (Nat × Nat × Nat) :=
  match findReportDateInText text with
  | some (d, m, y) =>
    if validDMY d m y then some (y, m, d) else extract_date_from_filename fname
  | none => extract_date_from_filename fname

/-- A concrete lower-cased basename containing the month name `august` and
the year `2022`, but in none of the arrangements recognised by the filename
scan. -/
def c7fname : List Char := "2022report_august.ods".toList

/-- C7 counterexample: this filename contains a recognised month name and a
four-digit year starting `20`, yet the Date Resolver's filename scan returns
no date at all instead of the last day of August. -/
theorem c7_counterexample :
    chContains ("august".toList) c7fname = true ∧
      chContains ("2022".toList) c7fname = true ∧
      extract_date_from_filename c7fname = none := by
  refine ⟨by decide, by decide, by decide⟩

/-- C7 amended: whenever a four-digit year starting `20` is found in the
filename and some month name of the vocabulary occurs in one of the
recognised arrangements (adjacent to the year with an optional `-`/`_`
separator, or isolated between separators or at the start/end), the
resolver returns the last calendar day of a matching month, computed by the
28/30/31 rule with no leap-year correction; in particular the filename
`prison-pop-august-2022.ods` resolves to 2022-08-31. -/
theorem c7_filename_last_day :
    (∀ fname y ys, findYear4 fname = some (y, ys) →
      (∃ p ∈ monthsMain, monthMatches fname ys p.1 = true) →
      ∃ p ∈ monthsMain, monthMatches fname ys p.1 = true ∧
        extract_date_from_filename fname = some (y, p.2, lastDayOfMonth p.2)) ∧
    extract_date_from_filename ("prison-pop-august-2022.ods".toList) =
      some (2022, 8, 31) := by
  constructor
  · intro fname y ys hy hex
    have hne : monthsMain.findSome? (tryMonth fname ys y) ≠ none := by
      intro hn
      rw [List.findSome?_eq_none_iff] at hn
      obtain ⟨p, hp, hm⟩ := hex
      have := hn p hp
      rw [tryMonth, if_pos hm] at this
      exact Option.some_ne_none _ this
    obtain ⟨d, hd⟩ := Option.ne_none_iff_exists'.mp hne
    obtain ⟨p, hp, hpd⟩ := List.exists_of_findSome?_eq_some hd
    rw [tryMonth] at hpd
    by_cases hm : monthMatches fname ys p.1 = true
    · rw [if_pos hm] at hpd
      refine ⟨p, hp, hm, ?_⟩
      simp only [extract_date_from_filename, hy, hd]
      exact hpd.symm
    · rw [if_neg hm] at hpd
      exact absurd hpd (Option.some_ne_none _).symm
  · decide

/-- Witness for C7's amended theorem at the filename
`prison-pop-august-2022.ods` with year 2022 and month `august`. -/
theorem c7_filename_last_day_witness :
    ∃ p ∈ monthsMain,
      monthMatches ("prison-pop-august-2022.ods".toList) ("2022".toList) p.1 = true ∧
        extract_date_from_filename ("prison-pop-august-2022.ods".toList) =
          some (2022, p.2, lastDayOfMonth p.2) :=
  c7_filename_last_day.1 ("prison-pop-august-2022.ods".toList) 2022 ("2022".toList)
    (by decide) ⟨("august".toList, 8), by decide, by decide⟩

/-! ## Tabular Parser, RTF variant (`extract_data_from_rtf`, lines 789-963) -/

/-- The standard 7-column schema (source lines 853-854). -/
def standardColumns : List (List Char) :=
  ["Prison Name".toList, "Baseline CNA".toList, "In Use CNA".toList,
   "Operational Capacity".toList, "Population *".toList,
   "% Pop to In Use CNA".toList, "% Accommodation Available".toList]

/-- Merge of adjacent header tokens `Operational` and `Capacity`
(source lines 844-850): when both occur and the first occurrence of
`Capacity` directly follows the first occurrence of `Operational`, the two
tokens are replaced by the single column name `Operational Capacity`. -/
def mergeOpCap (cols : List (List Char)) : List (List Char) :=
  if ("Operational".toList) ∈ cols ∧ ("Capacity".toList) ∈ cols then
    let op := cols.indexOf ("Operational".toList)
    let cap := cols.indexOf ("Capacity".toList)
    if cap = op + 1 then (cols.set op ("Operational Capacity".toList)).eraseIdx cap
    else cols
  else cols

/-- Header tokenisation (source lines 831-841): the header line, extended by
the stripped next line when that line is non-empty, mentions `Capacity` and
does not start with a letter, is split on runs of two or more whitespace
characters; fields are stripped and empty fields dropped. -/
def rtfHeaderTokens (line : List Char) (next? : Option (List Char)) :
    List (List Char) :=
  let headerLine :=
    match next? with
    | some nl =>
      let ns := stripCh nl
      if ns.isEmpty = false ∧ chContains ("Capacity".toList) ns = true ∧
          startsAlpha ns = false then
        line ++ (' ' :: ns)
      else line
    | none => line
  ((splitWs2 headerLine).map stripCh).filter (fun p => p.isEmpty = false)

/-- Column names extracted from a header line (source lines 831-858): the
tokenised and merged header is kept only when it has exactly 7 columns,
otherwise the standard schema is substituted wholesale. -/
def rtfHeaderColumns (line : List Char) (next? : Option (List Char)) :
    List (List Char) :=
  let cols := mergeOpCap (rtfHeaderTokens line next?)
  if cols.length ≠ 7 then standardColumns else cols

/-- A stripped line is recognised as the header row (source line 826). -/
def isRtfHeader (l : List Char) : Bool :=
  chContains ("Prison Name".toList) l &&
    (chContains ("Baseline".toList) l || chContains ("CNA".toList) l)

/-- A stripped line contains one of the four footer markers
(source line 865). -/
def containsAnyFooter (l : List Char) : Bool :=
  chContains ("Sub total".toList) l || chContains ("NOMS Operated".toList) l ||
    chContains ("Definitions of Accommodation".toList) l ||
    chContains ("Total".toList) l

/-- A stripped line is a report-date or page-info line to skip
(source line 871). -/
def isReportOrPage (l : List Char) : Bool :=
  chContains ("Report Date:".toList) l || ("Page".toList).isPrefixOf l

/-- A stripped line qualifies as a prison data row (source line 877): it
starts with a letter, does not start with `Report`, and does not mention
`Prison Name`. -/
def isDataRowLine (l : List Char) : Bool :=
  startsAlpha l && !(("Report".toList).isPrefixOf l) &&
    !(chContains ("Prison Name".toList) l)

/-- A token counts as the start of the numeric data (source line 887): it
begins with a digit, or starts or ends with a percent sign. -/
def rtfNumericTok (p : List Char) : Bool :=
  firstIsDigit p || (['%']).isPrefixOf p || (['%']).isSuffixOf p

/-- Assembly of one data row from a stripped line (source lines 881-898):
the line is split on whitespace, the first numeric-or-percent token marks the
boundary, tokens before it are joined with single spaces into the name and
the rest become the metric fields; a line with no numeric token yields no
row. -/
def rtfRowOfLine (l : List Char) : Option (List (List Char)) :=
  let parts := splitWsCh l
  match parts.findIdx? rtfNumericTok with
  | some idx =>
    let name := List.intercalate [' '] (parts.take idx)
    let nums := parts.drop idx
    if 0 < nums.length then some (name :: nums) else none
  | none => none

/-- Full state of the RTF line loop (source lines 811-815):
`colNames` models `column_names`, `data` the accumulated rows, and the two
flags model `in_data_section` and `data_section_ended`
(`prison_data_started` is written but never read, so it is omitted). -/
structure RtfState where
  inSection : Bool
  ended : Bool
  colNames : Option (List (List Char))
  data : List (List (List Char))
deriving DecidableEq, Repr

/-- Initial loop state. -/
def rtfInit : RtfState :=
  { inSection := false, ended := false, colNames := none, data := [] }

/-- One iteration of the RTF line loop (source lines 818-902); `next?` is
the following raw line, consulted only by the header-continuation
heuristic. -/
def rtfStep (st : RtfState) (l : List Char) (next? : Option (List Char)) :
    RtfState :=
  let s := stripCh l
  if s.isEmpty then st
  else if isRtfHeader s then
    { st with inSection := true, colNames := some (rtfHeaderColumns s next?) }
  else if st.inSection then
    if containsAnyFooter s then { st with ended := true }
    else if isReportOrPage s then st
    else if st.ended = false ∧ isDataRowLine s = true then
      match rtfRowOfLine s with
      | some row => { st with data := st.data ++ [row] }
      | none => st
    else st
  else st

/-- The RTF line loop over a list of raw lines. -/
def rtfLoop (st : RtfState) : List (List Char) → RtfState
  | [] => st
  | l :: rest => rtfLoop (rtfStep st l rest.head?) rest

/-- Header-independent part of the loop state (`colNames` does not influence
which rows are collected). -/
structure RtfCore where
  inSection : Bool
  ended : Bool
  data : List (List (List Char))
deriving DecidableEq, Repr

/-- Initial core state. -/
def rtfCoreInit : RtfCore := { inSection := false, ended := false, data := [] }

/-- Projection of the full loop state onto its header-independent part. -/
def coreOf (st : RtfState) : RtfCore :=
  { inSection := st.inSection, ended := st.ended, data := st.data }

/-- Core version of `rtfStep`: identical control flow, no lookahead. -/
def rtfCoreStep (st : RtfCore) (l : List Char) : RtfCore :=
  let s := stripCh l
  if s.isEmpty then st
  else if isRtfHeader s then { st with inSection := true }
  else if st.inSection then
    if containsAnyFooter s then { st with ended := true }
    else if isReportOrPage s then st
    else if st.ended = false ∧ isDataRowLine s = true then
      match rtfRowOfLine s with
      | some row => { st with data := st.data ++ [row] }
      | none => st
    else st
  else st

/-- Core version of the loop. -/
def rtfCoreLoop (st : RtfCore) : List (List Char) → RtfCore
  | [] => st
  | l :: rest => rtfCoreLoop (rtfCoreStep st l) rest

theorem coreOf_rtfStep (st : RtfState) (l : List Char)
    (next? : Option (List Char)) :
    coreOf (rtfStep st l next?) = rtfCoreStep (coreOf st) l := by
  unfold rtfStep rtfCoreStep coreOf
  dsimp only
  split
  · rfl
  · split
    · rfl
    · split
      · split
        · rfl
        · split
          · rfl
          · split
            · split <;> rfl
            · rfl
      · rfl

theorem coreOf_rtfLoop (st : RtfState) (ls : List (List Char)) :
    coreOf (rtfLoop st ls) = rtfCoreLoop (coreOf st) ls := by
  induction ls generalizing st with
  | nil => rfl
  | cons l rest ih => rw [rtfLoop, rtfCoreLoop, ← coreOf_rtfStep st l rest.head?, ih]

theorem rtfCoreLoop_append (st : RtfCore) (xs ys : List (List Char)) :
    rtfCoreLoop st (xs ++ ys) = rtfCoreLoop (rtfCoreLoop st xs) ys := by
  induction xs generalizing st with
  | nil => rfl
  | cons l rest ih => rw [List.cons_append, rtfCoreLoop, rtfCoreLoop, ih]

theorem rtfCoreStep_ended (st : RtfCore) (l : List Char) (h : st.ended = true) :
    (rtfCoreStep st l).data = st.data ∧ (rtfCoreStep st l).ended = true := by
  unfold rtfCoreStep
  dsimp only
  split
  · exact ⟨rfl, h⟩
  · split
    · exact ⟨rfl, h⟩
    · split
      · split
        · exact ⟨rfl, rfl⟩
        · split
          · exact ⟨rfl, h⟩
          · split
            · rename_i hc
              rw [h] at hc
              exact absurd hc.1 (by simp)
            · exact ⟨rfl, h⟩
      · exact ⟨rfl, h⟩

theorem rtfCoreLoop_ended (st : RtfCore) (ls : List (List Char))
    (h : st.ended = true) : (rtfCoreLoop st ls).data = st.data := by
  induction ls generalizing st with
  | nil => rfl
  | cons l rest ih =>
    rw [rtfCoreLoop]
    obtain ⟨h1, h2⟩ := rtfCoreStep_ended st l h
    rw [ih _ h2, h1]

theorem containsAnyFooter_ne_nil (l : List Char)
    (h : containsAnyFooter l = true) : l.isEmpty = false := by
  cases l with
  | nil => exact absurd h (by decide)
  | cons c rest => rfl

/-- C1 amended, RTF side: in the RTF line loop, once a line inside the data
section contains a footer marker (and is not itself recognised as a header
line), no data row is collected from that line or from any later line: the
rows collected from the whole text equal the rows collected from the prefix
before the marker line. -/
theorem c1_rtf_footer_terminates (pre post : List (List Char)) (fl : List Char)
    (hin : (rtfLoop rtfInit pre).inSection = true)
    (hft : containsAnyFooter (stripCh fl) = true)
    (hnh : isRtfHeader (stripCh fl) = false) :
    (rtfLoop rtfInit (pre ++ fl :: post)).data = (rtfLoop rtfInit pre).data := by
  have hinitcore : coreOf rtfInit = rtfCoreInit := rfl
  have hloopinit : ∀ ls, coreOf (rtfLoop rtfInit ls) = rtfCoreLoop rtfCoreInit ls := by
    intro ls; rw [coreOf_rtfLoop, hinitcore]
  have hdata : (rtfLoop rtfInit pre).data = (rtfCoreLoop rtfCoreInit pre).data := by
    rw [← hloopinit]; rfl
  have hins : (rtfCoreLoop rtfCoreInit pre).inSection = true := by
    rw [← hloopinit]; exact hin
  have hall : (rtfLoop rtfInit (pre ++ fl :: post)).data =
      (rtfCoreLoop rtfCoreInit (pre ++ fl :: post)).data := by
    rw [← hloopinit]; rfl
  rw [hall, hdata, rtfCoreLoop_append]
  set st := rtfCoreLoop rtfCoreInit pre with hst
  rw [rtfCoreLoop]
  have hstep : rtfCoreStep st fl = { st with ended := true } := by
    unfold rtfCoreStep
    dsimp only
    rw [containsAnyFooter_ne_nil _ hft]
    simp only [Bool.false_eq_true, if_false, hnh, hins, if_true, hft]
  rw [hstep]
  exact rtfCoreLoop_ended _ post rfl

/-- Concrete prefix for the C1 RTF witness: a header line and one data
line. -/
def c1pre : List (List Char) :=
  ["Prison Name  Baseline CNA  In Use CNA  Operational Capacity  Population *  % Pop to In Use CNA  % Accommodation Available".toList,
   "Altcourse 794 794 1324 1200 95% 5%".toList]

/-- Witness for C1's amended theorem: after the footer line `Total ...`, the
later data line is ignored by the RTF loop. -/
theorem c1_rtf_footer_terminates_witness :
    (rtfLoop rtfInit (c1pre ++ ("Total 794 794 1324 1200 95% 5%".toList) ::
        ["Beta 100 200 300 400 50% 6%".toList])).data =
      (rtfLoop rtfInit c1pre).data :=
  c1_rtf_footer_terminates c1pre ["Beta 100 200 300 400 50% 6%".toList]
    ("Total 794 794 1324 1200 95% 5%".toList) (by decide) (by decide) (by decide)

/-- C8: whenever the header line (with its optional continuation) tokenises
and merges to a column count different from 7, the RTF parser substitutes the
standard 7-column schema wholesale; the embedding is a total function, so no
error is ever raised for a header mismatch. -/
theorem c8_header_substitution (line : List Char) (next? : Option (List Char))
    (h : (mergeOpCap (rtfHeaderTokens line next?)).length ≠ 7) :
    rtfHeaderColumns line next? = standardColumns := by
  unfold rtfHeaderColumns
  rw [if_pos h]

/-- A concrete header line with only six columns. -/
def c8line : List Char :=
  "Prison Name  Baseline CNA  In Use CNA  Population *  % Pop to In Use CNA  % Accommodation Available".toList

/-- Witness for C8: the six-token header is replaced by the standard
schema. -/
theorem c8_header_substitution_witness :
    rtfHeaderColumns c8line none = standardColumns :=
  c8_header_substitution c8line none (by decide)

/-! ## Cells, numeric coercion and tables -/

/-- A non-null cell value of a parsed table: a number, a string, or a
date. -/
inductive CVal where
  | n (q : Rat)
  | s (x : List Char)
  | d (y m dd : Nat)
deriving DecidableEq, Repr

/-- A table cell; `none` models a pandas NaN / NA / None cell. -/
abbrev Cell := Option CVal

/-- Numeric value of a digit string. -/
def digitsVal (l : List Char) : Nat :=
  l.foldl (fun a c => a * 10 + (c.toNat - 48)) 0

/-- Model of `pd.to_numeric(..., errors='coerce')` on one string: optional
sign, digits with at most one decimal point (scientific notation is not used
by the corpus and is not modelled); failures yield `none`. -/
def parseNum (s : List Char) : Option Rat :=
  let t := stripCh s
  let sgn : Int := if t.head? = some '-' then -1 else 1
  let t1 := if t.head? = some '-' ∨ t.head? = some '+' then t.tail else t
  match List.splitOn '.' t1 with
  | [ip] =>
    if ip ≠ [] ∧ ip.all Char.isDigit then some (mkRat (sgn * Int.ofNat (digitsVal ip)) 1)
    else none
  | [ip, fp] =>
    if (ip ≠ [] ∨ fp ≠ []) ∧ ip.all Char.isDigit ∧ fp.all Char.isDigit then
      some (mkRat (sgn * Int.ofNat (digitsVal ip * 10 ^ fp.length + digitsVal fp))
        (10 ^ fp.length))
    else none
  | _ => none

/-- Strip all percent signs and commas from a metric token (the
`str.replace` cleanup at source lines 938 and 1117). -/
def cleanPct (s : List Char) : List Char :=
  s.filter (fun c => !(c = '%') && !(c = ','))

/-- Numeric coercion of one raw metric cell: a missing cell stays missing
(its string form `None` fails parsing), a token is cleaned and parsed. -/
def toNumCell (cell : Option (List Char)) : Cell :=
  match cell with
  | none => none
  | some s => (parseNum (cleanPct s)).map CVal.n

/-- A parsed table: the column names and the rows, each row aligned with the
columns. -/
structure Table where
  cols : List (List Char)
  rows : List (List Cell)
deriving DecidableEq, Repr

/-- The empty table (model of an empty DataFrame). -/
def Table.empty : Table := ⟨[], []⟩

/-- Rename of a `Population` column to `Population *` when the latter is
absent (source lines 947-948, 1126-1127, 248-249). -/
def renamePopulation (cols : List (List Char)) : List (List Char) :=
  if ("Population".toList) ∈ cols ∧ ("Population *".toList) ∉ cols then
    cols.map (fun c => if c = ("Population".toList) then ("Population *".toList) else c)
  else cols

/-- Row filter on the name column (source lines 950-953 and 1129-1132): a
missing name drops the row, a string name drops the row when it contains
`total` case-insensitively, any other value keeps the row. -/
def keepNameCell (c : Cell) : Bool :=
  match c with
  | none => false
  | some (CVal.s nm) => !(chContains ("total".toList) (lowerList nm))
  | some _ => true

/-- Application of the name filter to the rows of a table whose columns are
`cols`; when no `Prison Name` column exists the filter is skipped. -/
def filterPrisonRows (cols : List (List Char)) (rows : List (List Cell)) :
    List (List Cell) :=
  match List.indexOf? ("Prison Name".toList) cols with
  | some j => rows.filter (fun r => keepNameCell (r.getD j none))
  | none => rows

/-! ## Tabular Parser, PDF variant (`extract_data_from_pdf`, lines 966-1140) -/

/-- The fixed column schema of the PDF parser (source lines 977-978); note
the plain `Population` name, renamed at the end. -/
def pdfColumnNames : List (List Char) :=
  ["Prison Name".toList, "Baseline CNA".toList, "In Use CNA".toList,
   "Operational Capacity".toList, "Population".toList,
   "% Pop to In Use CNA".toList, "% Accommodation Available".toList]

/-- Join of tokens with single spaces (Python `' '.join`). -/
def joinTokens (ts : List (List Char)) : List Char := List.intercalate [' '] ts

/-- Python `str.isdigit` on ASCII text: non-empty and all digits. -/
def pyIsDigits (l : List Char) : Bool := !l.isEmpty && l.all Char.isDigit

/-- A PDF token counts as numeric data (source lines 1046 and 1062): it
begins with a digit or ends with a percent sign (unlike the RTF variant, a
leading percent sign does not qualify). -/
def pdfNumericTok (p : List Char) : Bool :=
  firstIsDigit p || (['%']).isSuffixOf p

/-- Page-number line (source line 1014): the whole line is `Page` plus
whitespace plus digits, or only digits. -/
def isPageNumLine (l : List Char) : Bool :=
  (if ("Page".toList).isPrefixOf l then
    let r := l.drop 4
    let rest := r.dropWhile isPyWs
    !(r.takeWhile isPyWs).isEmpty && !rest.isEmpty && rest.all Char.isDigit
  else false) || pyIsDigits l

/-- PDF header recognition (source lines 1021-1022). -/
def isPdfHeader (l : List Char) : Bool :=
  (chContains ("Prison Name".toList) l && chContains ("Baseline".toList) l &&
    chContains ("CNA".toList) l) ||
  (chContains ("Prison Name".toList) l && chContains ("Population".toList) l)

/-- PDF footer recognition (source line 1031): only three markers, the plain
`Total` marker of the RTF/DOC variants is absent. -/
def pdfFooterLine (l : List Char) : Bool :=
  chContains ("Sub total".toList) l || chContains ("NOMS Operated".toList) l ||
    chContains ("Definitions of Accommodation".toList) l

/-- Column-count reconciliation of one assembled PDF row (source lines
1076-1088): rows shorter than column count minus one are rejected; excess
leading tokens are folded into the name; a one-short row is padded with a
null cell; a final truncation guard keeps the first seven cells. -/
def pdfReconcile (row : List (List Char)) : Option (List (Option (List Char))) :=
  if pdfColumnNames.length - 1 ≤ row.length then
    let row1 :=
      if pdfColumnNames.length < row.length then
        let extra := row.length - pdfColumnNames.length
        joinTokens (row.take (extra + 1)) :: row.drop (extra + 1)
      else row
    let rowC : List (Option (List Char)) := row1.map some
    let rowP :=
      if row1.length < pdfColumnNames.length then
        rowC ++ List.replicate (pdfColumnNames.length - row1.length) none
      else rowC
    some (rowP.take pdfColumnNames.length)
  else none

/-- State of the PDF per-page line loop (source lines 997-999). -/
structure PdfPageState where
  inSection : Bool
  currentPrison : Option (List Char)
  rows : List (List (Option (List Char)))
deriving DecidableEq, Repr

/-- Initial per-page state. -/
def pdfPageInit : PdfPageState :=
  { inSection := false, currentPrison := none, rows := [] }

/-- One iteration of the PDF line loop (source lines 1001-1090). -/
def pdfStep (st : PdfPageState) (l0 : List Char) : PdfPageState :=
  let l := stripCh l0
  if l.isEmpty then st
  else if isPageNumLine l then st
  else if isPdfHeader l then { st with inSection := true }
  else if chContains ("Report Date:".toList) l then st
  else if pdfFooterLine l then { st with inSection := false }
  else if st.inSection then
    let parts := splitWsCh l
    if 2 ≤ parts.length ∧ pyIsDigits (parts.headD []) = false then
      if parts.any pdfNumericTok = false then { st with currentPrison := some l }
      else
        match st.currentPrison, parts.all pdfNumericTok with
        | some cp, true =>
          { st with currentPrison := none,
                    rows := st.rows ++ (pdfReconcile (cp :: parts)).toList }
        | _, _ =>
          match parts.findIdx? pdfNumericTok with
          | some idx =>
            { st with rows := st.rows ++
                (pdfReconcile (joinTokens (parts.take idx) :: parts.drop idx)).toList }
          | none => { st with currentPrison := some l }
    else st
  else st

/-- Rows collected from one page's text; an empty extraction is skipped
(source lines 990-992). -/
def pdfPageRows (pageText : List Char) : List (List (Option (List Char))) :=
  if pageText.isEmpty then []
  else (List.foldl pdfStep pdfPageInit (splitLines pageText)).rows

/-- Pages processed by the PDF parser: the final page is skipped when the
document has more than one page (source line 986). -/
def pdfPagesToUse (pages : List (List Char)) : List (List Char) :=
  if 1 < pages.length then pages.take (pages.length - 1) else pages

/-- Rows collected by the main PDF path across all processed pages. -/
def pdfMainRows (pages : List (List Char)) : List (List (Option (List Char))) :=
  (pdfPagesToUse pages).flatMap pdfPageRows

/-- Header check of the relaxed fallback (source lines 1614-1616). -/
def relaxedHeaderOk (header : List (Option (List Char))) : Bool :=
  let joined := joinTokens (header.filterMap id)
  chContains ("Prison".toList) joined || chContains ("CNA".toList) joined ||
    chContains ("Capacity".toList) joined

/-- Cell cleanup of the relaxed fallback (source lines 1624-1631): newlines
become spaces and the cell is stripped. -/
def cleanCellRelaxed (c : Option (List Char)) : Option (List Char) :=
  match c with
  | none => none
  | some s => some (stripCh (s.map (fun ch => if ch = '\n' then ' ' else ch)))

/-- Row pre-filter of the relaxed fallback (source line 1620): the row must
be non-empty, its first cell present and non-empty, and not a total row. -/
def relaxedRowOk (row : List (Option (List Char))) : Bool :=
  match row with
  | [] => false
  | c0 :: _ =>
    match c0 with
    | none => false
    | some s => !s.isEmpty && !(chContains ("total".toList) (lowerList s))

/-- Embedding of `extract_data_from_pdf_relaxed` (source lines 1589-1640)
over the tables reported by the page-level table extractor. -/
def extract_data_from_pdf_relaxed
    (tables : List (List (List (Option (List Char))))) :
    List (List (Option (List Char))) :=
  tables.flatMap (fun table =>
    if table.length ≤ 1 then []
    else
      match table with
      | [] => []
      | header :: body =>
        if relaxedHeaderOk header then
          (body.filter relaxedRowOk).filterMap (fun row =>
            let cleaned := row.map cleanCellRelaxed
            match cleaned.headD none with
            | some s => if !s.isEmpty && !(firstIsDigit s) then some cleaned else none
            | none => none)
        else [])

/-- Numeric coercion of one assembled PDF/RTF row against the fixed column
schema: every column except `Prison Name` is cleaned and coerced, the name
cell stays a string (source lines 1113-1118; the schema's column names are
pairwise distinct, so the per-column loop of the source acts
position-wise). -/
def coerceRowAgainst (cols : List (List Char)) (r : List (Option (List Char))) :
    List Cell :=
  (cols.zip r).map (fun pc =>
    if pc.1 = ("Prison Name".toList) then pc.2.map CVal.s else toNumCell pc.2)

/-- Embedding of `extract_data_from_pdf` (source lines 966-1140): `pages`
holds the per-page extracted text, `tables` the page-level tables used only
by the relaxed fallback, and `fnameLower` the lower-cased basename used by
the Date Resolver; the in-content date scan reads the first page. -/
def extract_data_from_pdf (pages : List (List Char))
    (tables : List (List (List (Option (List Char)))))
    (fnameLower : List Char) : Table :=
  let allData := pdfMainRows pages
  let allData := if allData.isEmpty then extract_data_from_pdf_relaxed tables else allData
  if allData.isEmpty then Table.empty
  else
    let rows0 := allData.map (coerceRowAgainst pdfColumnNames)
    let rd := extract_report_date (pages.headD []) fnameLower
    let cols1 :=
      match rd with
      | some _ => pdfColumnNames ++ [("Report_Date".toList)]
      | none => pdfColumnNames
    let rows1 :=
      match rd with
      | some (y, m, d) => rows0.map (fun r => r ++ [some (CVal.d y m d)])
      | none => rows0
    let cols2 := renamePopulation cols1
    let rows2 := filterPrisonRows cols2 rows1
    ⟨cols2, rows2⟩

/-! ## RTF table assembly (source lines 904-958) -/

/-- Default column names used when no header was found (source
lines 905-907); note the plain `Population` name. -/
def rtfDefaultColumns : List (List Char) :=
  ["Prison Name".toList, "Baseline CNA".toList, "In Use CNA".toList,
   "Operational Capacity".toList, "Population".toList,
   "% Pop to In Use CNA".toList, "% Accommodation Available".toList]

/-- Number of columns of the DataFrame built from the ragged row list:
pandas uses the maximum row length and pads shorter rows with `None`. -/
def maxRowLen (data : List (List (List Char))) : Nat :=
  data.foldl (fun a r => max a r.length) 0

/-- Column-count reconciliation of the assembled RTF DataFrame (source
lines 916-928): rows are first padded to the maximal row length, then —
when the column count disagrees with the header count — the frame is either
truncated to its first `colCount` columns or extended with `None` columns;
no row is dropped. -/
def rtfAdjust (colCount : Nat) (data : List (List (List Char))) :
    List (List (Option (List Char))) :=
  let n := maxRowLen data
  let padded := data.map (fun r => r.map some ++ List.replicate (n - r.length) none)
  if n ≠ colCount then
    if colCount < n then padded.map (fun r => r.take colCount)
    else padded.map (fun r => r ++ List.replicate (colCount - n) none)
  else padded

/-- Column names produced by the RTF line loop, or the default schema when
no header was found (source lines 904-907, 930-931). -/
def rtfParsedColNames (text : List Char) : List (List Char) :=
  (rtfLoop rtfInit (splitLines text)).colNames.getD rtfDefaultColumns

/-- Final column names of the RTF parser: the parsed names, a `Report_Date`
column when a date was resolved, and the `Population` rename (source lines
941-948). -/
def rtfFinalCols (text fnameLower : List Char) : List (List Char) :=
  renamePopulation
    (match extract_report_date text fnameLower with
     | some _ => rtfParsedColNames text ++ [("Report_Date".toList)]
     | none => rtfParsedColNames text)

/-- Rows of the RTF parser before the final name filter: the collected rows,
reconciled against the column count, numerically coerced, and extended with
the resolved report date (source lines 914-944). -/
def rtfAssembledRows (text fnameLower : List Char) : List (List Cell) :=
  let colNames := rtfParsedColNames text
  let rows0 := (rtfAdjust colNames.length (rtfLoop rtfInit (splitLines text)).data).map
    (coerceRowAgainst colNames)
  match extract_report_date text fnameLower with
  | some (y, m, d) => rows0.map (fun r => r ++ [some (CVal.d y m d)])
  | none => rows0

/-- Embedding of `extract_data_from_rtf` (source lines 789-963): `text` is
the output of the rich-text conversion and `fnameLower` the lower-cased
basename used by the Date Resolver fallback. -/
def extract_data_from_rtf (text fnameLower : List Char) : Table :=
  if (rtfLoop rtfInit (splitLines text)).data.isEmpty then Table.empty
  else
    ⟨rtfFinalCols text fnameLower,
     filterPrisonRows (rtfFinalCols text fnameLower) (rtfAssembledRows text fnameLower)⟩

theorem pdfColumnNames_length : pdfColumnNames.length = 7 := rfl

theorem foldlMax_ge_init (xs : List (List (List Char))) :
    ∀ a : Nat, a ≤ xs.foldl (fun a r => max a r.length) a := by
  induction xs with
  | nil => intro a; exact le_refl a
  | cons y ys ih =>
    intro a
    rw [List.foldl_cons]
    exact le_trans (le_max_left a y.length) (ih _)

theorem maxRowLen_ge (data : List (List (List Char))) (r : List (List Char))
    (h : r ∈ data) : r.length ≤ maxRowLen data := by
  suffices h2 : ∀ a : Nat, r.length ≤ data.foldl (fun a r => max a r.length) a from h2 0
  induction data with
  | nil => cases h
  | cons x xs ih =>
    intro a
    rw [List.foldl_cons]
    rcases List.mem_cons.mp h with rfl | hm
    · exact le_trans (le_max_right a r.length) (foldlMax_ge_init xs _)
    · exact ih hm _

/-- Concrete single-page PDF text whose data section contains a `Total` line
followed by a further data line. -/
def c1pdfPage : List Char :=
  "Prison Name Baseline CNA In Use CNA Operational Capacity Population\nAltcourse 794 794 1324 1200 95% 5%\nTotal 900 900 1400 1300 95% 5%\nBeta 100 200 300 400 50% 6%".toList

set_option maxRecDepth 16384 in
/-- C1 counterexample: in the PDF parser, line 2 of this page contains the
footer marker `Total` and is reached inside the data section, yet the final
parsed table still contains the record `Beta` derived from line 3, after the
marker; plain `Total` is not in the PDF footer list. -/
theorem c1_counterexample :
    chContains ("Total".toList) ((splitLines c1pdfPage).getD 2 []) = true ∧
      (List.foldl pdfStep pdfPageInit ((splitLines c1pdfPage).take 2)).inSection = true ∧
      (extract_data_from_pdf [c1pdfPage] [] ("report.pdf".toList)).rows.map
          (fun r => r.getD 0 none) =
        [some (CVal.s ("Altcourse".toList)), some (CVal.s ("Beta".toList))] := by
  refine ⟨by decide, by decide, by decide⟩

/-- Concrete single-page PDF text with a short data row `Alpha 1 2`. -/
def c2pdfPage : List Char :=
  "Prison Name Baseline CNA In Use CNA Operational Capacity Population\nAlpha 1 2\nBeta 1 2 3 4 5 6".toList

set_option maxRecDepth 16384 in
/-- C2 counterexample: the line `Alpha 1 2` assembles to a row of 3 tokens
against a 7-column header, is reached inside the data section, and is
dropped from the PDF parser's final table purely for its token count. -/
theorem c2_counterexample :
    (splitWsCh ((splitLines c2pdfPage).getD 1 [])).length = 3 ∧
      (List.foldl pdfStep pdfPageInit ((splitLines c2pdfPage).take 1)).inSection = true ∧
      (extract_data_from_pdf [c2pdfPage] [] ("report.pdf".toList)).rows.map
          (fun r => r.getD 0 none) = [some (CVal.s ("Beta".toList))] := by
  refine ⟨by decide, by decide, by decide⟩

/-- C2 amended: in the PDF parser an assembled row is dropped when its token
count is below the header count minus one; a row of at least that many
tokens is kept, with excess leading tokens folded into the name and a
one-short row padded with a null; in the RTF parser no row is ever dropped
for a count mismatch: the assembled frame is padded to the maximal row
length and then truncated (dropping trailing cells) or extended with null
columns to the header count. -/
theorem c2_row_reconciliation :
    (∀ row : List (List Char), row.length < 6 → pdfReconcile row = none) ∧
    (∀ row : List (List Char), 6 ≤ row.length →
      ∃ out, pdfReconcile row = some out ∧ out.length = 7 ∧
        (7 < row.length →
          out.headD none = some (joinTokens (row.take (row.length - 6)))) ∧
        (row.length = 6 → out = row.map some ++ [none]) ∧
        (row.length = 7 → out = row.map some)) ∧
    (∀ (colCount : Nat) (data : List (List (List Char))),
      (rtfAdjust colCount data).length = data.length) ∧
    (∀ (colCount : Nat) (data : List (List (List Char))),
      maxRowLen data ≤ colCount →
      rtfAdjust colCount data =
        data.map (fun r => r.map some ++ List.replicate (colCount - r.length) none)) ∧
    (∀ (colCount : Nat) (data : List (List (List Char))),
      colCount < maxRowLen data →
      rtfAdjust colCount data =
        data.map (fun r =>
          (r.map some ++ List.replicate (maxRowLen data - r.length) none).take colCount)) := by
  refine ⟨?_, ?_, ?_, ?_, ?_⟩
  · intro row h
    unfold pdfReconcile
    dsimp only
    rw [pdfColumnNames_length, if_neg (by omega)]
  · intro row h
    unfold pdfReconcile
    dsimp only
    rw [pdfColumnNames_length, if_pos (by omega)]
    by_cases h7 : 7 < row.length
    · rw [if_pos h7]
      have hd : (row.drop (row.length - 7 + 1)).length = 6 := by
        rw [List.length_drop]; omega
      have hlen1 : (joinTokens (row.take (row.length - 7 + 1)) ::
          row.drop (row.length - 7 + 1)).length = 7 := by
        rw [List.length_cons, hd]
      rw [if_neg (by rw [hlen1]; omega)]
      refine ⟨_, rfl, ?_, ?_, ?_, ?_⟩
      · rw [List.take_of_length_le (by rw [List.length_map, hlen1]),
          List.length_map, hlen1]
      · intro _
        rw [List.take_of_length_le (by rw [List.length_map, hlen1])]
        have : row.length - 7 + 1 = row.length - 6 := by omega
        rw [List.map_cons, List.headD_cons, this]
      · intro h6; omega
      · intro h7e; omega
    · rw [if_neg h7]
      have h67 : row.length = 6 ∨ row.length = 7 := by omega
      rcases h67 with h6 | h7e
      · rw [if_pos (by omega)]
        refine ⟨_, rfl, ?_, ?_, ?_, ?_⟩
        · rw [List.take_of_length_le
            (by rw [List.length_append, List.length_map, List.length_replicate]; omega),
            List.length_append, List.length_map, List.length_replicate]
          omega
        · intro hcon; omega
        · intro _
          rw [List.take_of_length_le
            (by rw [List.length_append, List.length_map, List.length_replicate]; omega)]
          rw [h6]
          rfl
        · intro hcon; omega
      · rw [if_neg (by omega)]
        refine ⟨_, rfl, ?_, ?_, ?_, ?_⟩
        · rw [List.take_of_length_le (by rw [List.length_map]; omega),
            List.length_map]
          omega
        · intro hcon; omega
        · intro hcon; omega
        · intro _
          exact List.take_of_length_le (by rw [List.length_map]; omega)
  · intro colCount data
    unfold rtfAdjust
    dsimp only
    split
    · split <;> rw [List.length_map, List.length_map]
    · rw [List.length_map]
  · intro colCount data h
    unfold rtfAdjust
    dsimp only
    by_cases he : maxRowLen data = colCount
    · rw [if_neg (by simp [he])]
      apply List.map_congr_left
      intro r _
      rw [he]
    · rw [if_pos he, if_neg (by omega), List.map_map]
      apply List.map_congr_left
      intro r hr
      have hr' := maxRowLen_ge data r hr
      show (r.map some ++ List.replicate (maxRowLen data - r.length) none) ++
          List.replicate (colCount - maxRowLen data) none =
        r.map some ++ List.replicate (colCount - r.length) none
      rw [List.append_assoc, ← List.replicate_add]
      congr 2
      omega
  · intro colCount data h
    unfold rtfAdjust
    dsimp only
    rw [if_pos (by omega), if_pos h, List.map_map]
    rfl

/-- Witness for C2's amended theorem: the three-token row `Alpha 1 2` is
rejected by the PDF reconciliation. -/
theorem c2_row_reconciliation_witness :
    pdfReconcile [("Alpha".toList), ("1".toList), ("2".toList)] = none :=
  c2_row_reconciliation.1 [("Alpha".toList), ("1".toList), ("2".toList)] (by decide)

/-- C3 amended, RTF side: when the RTF parser collected any rows and the
final columns contain `Prison Name` at position `j`, a row belongs to the
final table exactly when it is an assembled row whose name cell passes the
name filter; the name filter drops a missing name and a name containing
`total` case-insensitively, and nothing else — in particular a row whose
metric cells all failed numeric coercion is retained. -/
theorem c3_rtf_row_filter (text fnameLower : List Char) (j : Nat) (r : List Cell)
    (hne : (rtfLoop rtfInit (splitLines text)).data.isEmpty = false)
    (hj : List.indexOf? ("Prison Name".toList) (rtfFinalCols text fnameLower) = some j) :
    (r ∈ (extract_data_from_rtf text fnameLower).rows ↔
      r ∈ rtfAssembledRows text fnameLower ∧ keepNameCell (r.getD j none) = true) ∧
    keepNameCell none = false ∧
    (∀ nm, keepNameCell (some (CVal.s nm)) =
      !(chContains ("total".toList) (lowerList nm))) := by
  refine ⟨?_, rfl, fun nm => rfl⟩
  unfold extract_data_from_rtf
  rw [if_neg (by simp [hne])]
  show r ∈ filterPrisonRows (rtfFinalCols text fnameLower)
      (rtfAssembledRows text fnameLower) ↔ _
  unfold filterPrisonRows
  rw [hj]
  exact List.mem_filter

/-- Concrete RTF text whose single data row has a name and only
uncoercible metric tokens. -/
def c3rtfText : List Char :=
  "Prison Name  Baseline CNA  In Use CNA  Operational Capacity  Population *  % Pop to In Use CNA  % Accommodation Available\nFoo %N/A %N/A %N/A %N/A %N/A %N/A".toList

/-- The record produced from the all-uncoercible row: the name is kept and
every metric cell is null. -/
def c3rtfRow : List Cell :=
  [some (CVal.s ("Foo".toList)), none, none, none, none, none, none]

set_option maxRecDepth 16384 in
/-- Witness for C3's amended theorem: the row whose metric cells all failed
numeric coercion is present in the RTF parser's final table. -/
theorem c3_rtf_row_filter_witness :
    c3rtfRow ∈ (extract_data_from_rtf c3rtfText ("data.rtf".toList)).rows :=
  (c3_rtf_row_filter c3rtfText ("data.rtf".toList) 0 c3rtfRow (by decide)
    (by decide)).1.mpr ⟨by decide, by decide⟩

/-! ## Tabular Parser, ODS variant (`extract_data_from_ods`, lines 628-786) -/

/-- Month vocabulary of the ODS date fallback in its own dictionary order
(source lines 697-710): full name and abbreviation interleaved. -/
def odsMonths : List (List Char × Nat) :=
  [("january".toList, 1), ("jan".toList, 1), ("february".toList, 2),
   ("feb".toList, 2), ("march".toList, 3), ("mar".toList, 3),
   ("april".toList, 4), ("apr".toList, 4), ("may".toList, 5),
   ("june".toList, 6), ("jun".toList, 6), ("july".toList, 7),
   ("jul".toList, 7), ("august".toList, 8), ("aug".toList, 8),
   ("september".toList, 9), ("sep".toList, 9), ("sept".toList, 9),
   ("october".toList, 10), ("oct".toList, 10), ("november".toList, 11),
   ("nov".toList, 11), ("december".toList, 12), ("dec".toList, 12)]

/-- Separator class of the ODS fallback regexes: hyphen, underscore or
whitespace. -/
def isOdsSep (c : Char) : Bool := c = '-' || c = '_' || isPyWs c

/-- After a month name: skip any separators, then read four digits. -/
def sepStarYear (l : List Char) : Option Nat :=
  (fourDigits (l.dropWhile isOdsSep)).map Prod.fst

/-- Leftmost match of the month-then-year regex of the ODS fallback (source
line 714): at each position the month alternatives are tried in dictionary
order, followed by optional separators and four digits. -/
def searchMonthYear : List Char → Option (Nat × Nat)
  | [] => none
  | c :: rest =>
    match odsMonths.findSome? (fun p =>
      if p.1.isPrefixOf (c :: rest) then
        (sepStarYear ((c :: rest).drop p.1.length)).map (fun y => (p.2, y))
      else none) with
    | some r => some r
    | none => searchMonthYear rest

/-- Leftmost match of the year-then-month regex of the ODS fallback (source
line 723). -/
def searchYearMonth : List Char → Option (Nat × Nat)
  | [] => none
  | c :: rest =>
    match
      (match fourDigits (c :: rest) with
       | some (y, r1) =>
         (odsMonths.findSome? (fun p =>
           if p.1.isPrefixOf (r1.dropWhile isOdsSep) then some p.2 else none)).map
             (fun m => (y, m))
       | none => none) with
    | some r => some r
    | none => searchYearMonth rest

/-- Last resort of the ODS fallback (source lines 733-740): a `20xx` year
anywhere plus the first month of the dictionary contained anywhere. -/
def odsSeparate (fname : List Char) : Option (Nat × Nat) :=
  match findYear4 fname with
  | some (y, _) =>
    odsMonths.findSome? (fun p => if chContains p.1 fname then some (y, p.2) else none)
  | none => none

/-- The ODS in-function date fallback (source lines 696-740); every branch
synthesises the first day of the month. -/
def odsDateFallback (fname : List Char) : Option (Nat × Nat × Nat) :=
  match searchMonthYear fname with
  | some (m, y) => some (y, m, 1)
  | none =>
    match searchYearMonth fname with
    | some (y, m) => some (y, m, 1)
    | none => (odsSeparate fname).map (fun q => (q.1, q.2, 1))

/-- Python `str()` of an ODS cell read with `dtype=str`: a missing cell
prints as `nan`. -/
def odsStr (c : Option (List Char)) : List Char :=
  match c with
  | none => "nan".toList
  | some s => s

/-- Numeric coercion of one raw ODS metric cell (source lines 673-680):
commas and spaces are removed, then `pd.to_numeric(errors='coerce')`; a
missing cell stringifies to `nan`, which fails parsing. -/
def odsNumCell (c : Option (List Char)) : Cell :=
  match c with
  | none => none
  | some s => (parseNum (s.filter (fun ch => !(ch = ',') && !(ch = ' ')))).map CVal.n

/-- Index of the header row: the first row whose first cell is a string that
strips to `Prison Name` (source lines 643-647). -/
def findHeaderRowIdx (grid : List (List (Option (List Char)))) : Option Nat :=
  grid.findIdx? (fun row =>
    match row.headD none with
    | some s => stripCh s = ("Prison Name".toList)
    | none => false)

/-- The candidate output columns of the ODS parser, in fixed order (source
lines 752-753), without the date column. -/
def odsCandidateCols : List (List Char) :=
  ["Prison Name".toList, "Baseline CNA".toList, "In Use CNA".toList,
   "Operational Capacity".toList, "Population *".toList]

/-- Embedding of `extract_data_from_ods` (source lines 628-786): `grid` is
the spreadsheet read with no header and all cells as strings (missing cells
are `none`), `fnameLower` the lower-cased basename.  Column labels are
assumed pairwise distinct, as produced by the report files; pandas column
access takes the first occurrence here. -/
def extract_data_from_ods (grid : List (List (Option (List Char))))
    (fnameLower : List Char) : Table :=
  match findHeaderRowIdx grid with
  | none => Table.empty
  | some hIdx =>
    let headers := grid.getD hIdx []
    let body := grid.drop (hIdx + 1)
    let pnIdx? := List.indexOf? (some ("Prison Name".toList)) headers
    let body1 :=
      match pnIdx? with
      | none => body
      | some j =>
        let bodyS := body.map (fun (r : List (Option (List Char))) =>
          r.set j (some (odsStr (r.getD j none))))
        match bodyS.findIdx? (fun (r : List (Option (List Char))) =>
          match r.getD j none with
          | some s => chContains ("total".toList) (lowerList s)
          | none => false) with
        | some k => bodyS.take k
        | none => bodyS
    let rd :=
      match extract_date_from_filename fnameLower with
      | some dd => some dd
      | none => odsDateFallback fnameLower
    match rd with
    | none => Table.empty
    | some (y, m, d) =>
      let selNames := odsCandidateCols.filter (fun c => (some c) ∈ headers)
      let cols := selNames ++ [("Report_Date".toList)]
      let rows0 := body1.map (fun r =>
        selNames.map (fun c =>
          match List.indexOf? (some c) headers with
          | some j =>
            if c = ("Prison Name".toList) then some (CVal.s (odsStr (r.getD j none)))
            else odsNumCell (r.getD j none)
          | none => none) ++ [some (CVal.d y m d)])
      let rows01 :=
        if ("Prison Name".toList) ∈ selNames then
          rows0.filter (fun (r : List Cell) =>
            !(r.getD (List.indexOf ("Prison Name".toList) selNames) none = none))
        else rows0
      let numIdxs := (List.range selNames.length).filter
        (fun i => !(selNames.getD i [] = ("Prison Name".toList)))
      let rows1 :=
        if numIdxs.isEmpty then rows01
        else rows01.filter (fun (r : List Cell) =>
          !(numIdxs.all (fun i => r.getD i none = none)))
      if rows1.isEmpty then Table.empty else ⟨cols, rows1⟩

/-- Concrete ODS grid: a header row and one data row whose name is present
but whose metric cells are all `N/A`. -/
def c3odsGrid : List (List (Option (List Char))) :=
  [[some ("Prison Name".toList), some ("Baseline CNA".toList),
    some ("In Use CNA".toList), some ("Operational Capacity".toList),
    some ("Population *".toList)],
   [some ("Foo".toList), some ("N/A".toList), some ("N/A".toList),
    some ("N/A".toList), some ("N/A".toList)]]

set_option maxRecDepth 16384 in
/-- C3 counterexample: in the ODS parser, the row with the present name
`Foo` and all-uncoercible metric cells is dropped — the resulting table is
empty, contradicting the claim that such a row is retained with nulls. -/
theorem c3_counterexample :
    ((c3odsGrid.getD 1 []).getD 0 none = some ("Foo".toList)) ∧
      extract_data_from_ods c3odsGrid ("prison-pop-august-2022.ods".toList) =
        Table.empty := by
  refine ⟨by decide, by decide⟩

/-! ## Corpus Combiner (`combine_prison_data`, processing source lines 130-281) -/

/-- Sort key of one non-null cell value, in a lexicographic linear order:
numbers, then dates, then strings, each compared within its kind (the model
only needs a total order agreeing with pandas on the homogeneous key columns
of the pipeline). -/
def cvalKey (v : CVal) :
    Lex (Nat × Lex (Rat × Lex (String × Lex (Nat × Lex (Nat × Nat))))) :=
  match v with
  | CVal.n q => toLex (0, toLex (q, toLex ("", toLex (0, toLex (0, 0)))))
  | CVal.d y m dd => toLex (1, toLex (0, toLex ("", toLex (y, toLex (m, dd)))))
  | CVal.s x => toLex (2, toLex (0, toLex (String.mk x, toLex (0, toLex (0, 0)))))

/-- Sort key of a cell: missing cells sort last, as pandas places NaN with
`na_position='last'`. -/
def cellKey (c : Cell) :
    Lex (Bool × Lex (Nat × Lex (Rat × Lex (String × Lex (Nat × Lex (Nat × Nat)))))) :=
  match c with
  | none => toLex (true, cvalKey (CVal.n 0))
  | some v => toLex (false, cvalKey v)

/-- Cell of a row at a named column; a missing column reads as null. -/
def cellAtCol (cols : List (List Char)) (r : List Cell) (c : List Char) : Cell :=
  match List.indexOf? c cols with
  | some i => r.getD i none
  | none => none

/-- Combined sort key of a row: the `Report_Date` cell first, then the
`Prison Name` cell (source line 264). -/
def rowKey (cols : List (List Char)) (r : List Cell) :
    Lex ((Lex (Bool × Lex (Nat × Lex (Rat × Lex (String × Lex (Nat × Lex (Nat × Nat))))))) ×
      (Lex (Bool × Lex (Nat × Lex (Rat × Lex (String × Lex (Nat × Lex (Nat × Nat)))))))) :=
  toLex (cellKey (cellAtCol cols r ("Report_Date".toList)),
    cellKey (cellAtCol cols r ("Prison Name".toList)))

/-- Boolean comparison of two rows by their sort keys. -/
def rowLeB (cols : List (List Char)) (a b : List Cell) : Bool :=
  decide (rowKey cols a ≤ rowKey cols b)

theorem rowLeB_total (cols : List (List Char)) (a b : List Cell) :
    rowLeB cols a b = true ∨ rowLeB cols b a = true := by
  unfold rowLeB
  rcases le_total (rowKey cols a) (rowKey cols b) with h | h
  · exact Or.inl (by simpa using h)
  · exact Or.inr (by simpa using h)

theorem rowLeB_trans (cols : List (List Char)) (a b c : List Cell)
    (h1 : rowLeB cols a b = true) (h2 : rowLeB cols b c = true) :
    rowLeB cols a c = true := by
  unfold rowLeB at *
  simp only [decide_eq_true_eq] at *
  exact le_trans h1 h2

/-- Insertion of an element into a sorted list under a boolean relation
(model of the pandas sort; pandas's own algorithm is unstable quicksort, so
only the sortedness and the multiset of rows are specified). -/
def insertSorted {α : Type} (le : α → α → Bool) (x : α) : List α → List α
  | [] => [x]
  | y :: ys => if le x y then x :: y :: ys else y :: insertSorted le x ys

/-- Insertion sort under a boolean relation. -/
def sortRowsBy {α : Type} (le : α → α → Bool) : List α → List α
  | [] => []
  | x :: xs => insertSorted le x (sortRowsBy le xs)

theorem mem_insertSorted {α : Type} (le : α → α → Bool) (x : α) (l : List α)
    (a : α) : a ∈ insertSorted le x l ↔ a = x ∨ a ∈ l := by
  induction l with
  | nil => simp [insertSorted]
  | cons y ys ih =>
    unfold insertSorted
    by_cases h : le x y = true
    · simp [h]
    · rw [if_neg h]
      simp only [List.mem_cons, ih]
      tauto

theorem mem_sortRowsBy {α : Type} (le : α → α → Bool) (l : List α) (a : α) :
    a ∈ sortRowsBy le l ↔ a ∈ l := by
  induction l with
  | nil => simp [sortRowsBy]
  | cons x xs ih =>
    unfold sortRowsBy
    rw [mem_insertSorted, ih, List.mem_cons]

theorem pairwise_insertSorted {α : Type} (le : α → α → Bool)
    (htot : ∀ a b, le a b = true ∨ le b a = true)
    (htr : ∀ a b c, le a b = true → le b c = true → le a c = true)
    (x : α) (l : List α) (h : List.Pairwise (fun a b => le a b = true) l) :
    List.Pairwise (fun a b => le a b = true) (insertSorted le x l) := by
  induction l with
  | nil => simp [insertSorted]
  | cons y ys ih =>
    unfold insertSorted
    rcases List.pairwise_cons.mp h with ⟨hy, hys⟩
    by_cases hxy : le x y = true
    · rw [if_pos hxy]
      refine List.pairwise_cons.mpr ⟨?_, h⟩
      intro z hz
      rcases List.mem_cons.mp hz with rfl | hz2
      · exact hxy
      · exact htr _ _ _ hxy (hy z hz2)
    · rw [if_neg hxy]
      have hyx : le y x = true := by
        rcases htot x y with h' | h'
        · exact absurd h' hxy
        · exact h'
      refine List.pairwise_cons.mpr ⟨?_, ih hys⟩
      intro z hz
      rcases (mem_insertSorted le x ys z).mp hz with rfl | hz2
      · exact hyx
      · exact hy z hz2

theorem pairwise_sortRowsBy {α : Type} (le : α → α → Bool)
    (htot : ∀ a b, le a b = true ∨ le b a = true)
    (htr : ∀ a b c, le a b = true → le b c = true → le a c = true)
    (l : List α) :
    List.Pairwise (fun a b => le a b = true) (sortRowsBy le l) := by
  induction l with
  | nil => exact List.Pairwise.nil
  | cons x xs ih => exact pairwise_insertSorted le htot htr x _ ih

/-- Keep-first deduplication scanner (model of pandas `drop_duplicates`,
which keeps the first occurrence); `seen` holds the values already
emitted. -/
def dropDupsAux {α : Type} [DecidableEq α] (seen : List α) : List α → List α
  | [] => []
  | x :: xs =>
    if x ∈ seen then dropDupsAux seen xs else x :: dropDupsAux (x :: seen) xs

/-- Keep-first deduplication (source line 269). -/
def dropDuplicates {α : Type} [DecidableEq α] (l : List α) : List α :=
  dropDupsAux [] l

theorem mem_dropDupsAux {α : Type} [DecidableEq α] (seen : List α)
    (l : List α) (a : α) :
    a ∈ dropDupsAux seen l ↔ a ∈ l ∧ a ∉ seen := by
  induction l generalizing seen with
  | nil => simp [dropDupsAux]
  | cons x xs ih =>
    unfold dropDupsAux
    by_cases hx : x ∈ seen
    · rw [if_pos hx, ih]
      constructor
      · rintro ⟨h1, h2⟩; exact ⟨List.mem_cons_of_mem _ h1, h2⟩
      · rintro ⟨h1, h2⟩
        rcases List.mem_cons.mp h1 with rfl | h1
        · exact absurd hx h2
        · exact ⟨h1, h2⟩
    · rw [if_neg hx]
      constructor
      · intro h
        rcases List.mem_cons.mp h with rfl | h2
        · exact ⟨List.mem_cons_self _ _, hx⟩
        · rcases (ih (x :: seen)).mp h2 with ⟨h3, h4⟩
          refine ⟨List.mem_cons_of_mem _ h3, fun hc => h4 (List.mem_cons_of_mem _ hc)⟩
      · rintro ⟨h1, h2⟩
        rcases List.mem_cons.mp h1 with rfl | h3
        · exact List.mem_cons_self _ _
        · by_cases hax : a = x
          · subst hax; exact List.mem_cons_self _ _
          · exact List.mem_cons_of_mem _ ((ih (x :: seen)).mpr
              ⟨h3, fun hc => (List.mem_cons.mp hc).elim hax h2⟩)

theorem mem_dropDuplicates {α : Type} [DecidableEq α] (l : List α) (a : α) :
    a ∈ dropDuplicates l ↔ a ∈ l := by
  unfold dropDuplicates
  rw [mem_dropDupsAux]
  simp

theorem dropDupsAux_sublist {α : Type} [DecidableEq α] (seen : List α)
    (l : List α) : (dropDupsAux seen l).Sublist l := by
  induction l generalizing seen with
  | nil => exact List.Sublist.refl []
  | cons x xs ih =>
    unfold dropDupsAux
    by_cases hx : x ∈ seen
    · rw [if_pos hx]; exact List.Sublist.cons x (ih seen)
    · rw [if_neg hx]; exact List.Sublist.cons₂ x (ih (x :: seen))

theorem nodup_dropDupsAux {α : Type} [DecidableEq α] (seen : List α)
    (l : List α) : (dropDupsAux seen l).Nodup := by
  induction l generalizing seen with
  | nil => exact List.nodup_nil
  | cons x xs ih =>
    unfold dropDupsAux
    by_cases hx : x ∈ seen
    · rw [if_pos hx]; exact ih seen
    · rw [if_neg hx]
      refine List.nodup_cons.mpr ⟨?_, ih (x :: seen)⟩
      intro hc
      exact ((mem_dropDupsAux (x :: seen) xs x).mp hc).2 (List.mem_cons_self _ _)

theorem nodup_dropDuplicates {α : Type} [DecidableEq α] (l : List α) :
    (dropDuplicates l).Nodup := nodup_dropDupsAux [] l

/-- One file's contribution to the corpus walk: `extracted` is the parsed
table (`none` models an exception escaping the per-file extraction, caught
at the loop boundary, source lines 216-218), `fallbackDate` the date the
combiner would attach when the table lacks a `Report_Date` column (resolver
result or file-modification time, source lines 194-202). -/
structure FileOutcome where
  extracted : Option Table
  fallbackDate : Cell
deriving DecidableEq, Repr

/-- A per-file table is usable (source line 189): non-empty and containing
the `Prison Name` column. -/
def usable (t : Table) : Bool :=
  !t.rows.isEmpty && t.cols.contains ("Prison Name".toList)

/-- Attach the fallback report date when the `Report_Date` column is missing
(source lines 194-202). -/
def ensureDate (t : Table) (fb : Cell) : Table :=
  if t.cols.contains ("Report_Date".toList) then t
  else ⟨t.cols ++ [("Report_Date".toList)], t.rows.map (fun r => r ++ [fb])⟩

/-- The per-file accumulation loop (source lines 165-218): failed or
unusable files are skipped, usable tables get their date column ensured and
are collected in order. -/
def collectUsable : List FileOutcome → List Table
  | [] => []
  | fo :: rest =>
    match fo.extracted with
    | some t =>
      if usable t then ensureDate t fo.fallbackDate :: collectUsable rest
      else collectUsable rest
    | none => collectUsable rest

/-- Union of the column sets of the accumulated tables (source lines 163,
211); the source keeps a Python set, the model a first-occurrence-ordered
deduplicated list — the claims about it are set-level. -/
def columnsUnion (dfs : List Table) : List (List Char) :=
  dfs.foldl (fun acc t => acc ++ t.cols.filter (fun c => !acc.contains c)) []

/-- The denylisted derived percentage columns (source line 224). -/
def combineDenylist : List (List Char) :=
  ["% Pop to In Use CNA".toList, "% Accommodation Available".toList]

/-- Standard columns of the run: the union minus the denylist (source
line 227). -/
def standardColumnsOf (dfs : List Table) : List (List Char) :=
  (columnsUnion dfs).filter (fun c => !combineDenylist.contains c)

/-- Standardisation of one row to the standard columns (source lines
229-242): denylisted columns are dropped, missing columns are filled with a
null marker, and the columns are reordered; each cell is looked up by
column name in the row's own table. -/
def standardizeRow (stdCols : List (List Char)) (t : Table) (r : List Cell) :
    List Cell :=
  stdCols.map (fun c => cellAtCol t.cols r c)

/-- The known numeric columns re-coerced by the combiner (source
line 253). -/
def combineNumericCols : List (List Char) :=
  ["Baseline CNA".toList, "In Use CNA".toList, "Operational Capacity".toList,
   "Population *".toList]

/-- Model of `pd.to_numeric(errors='coerce')` on one combined cell: numbers
and nulls are unchanged, strings are parsed, anything else coerces to
null. -/
def toNumericCVal (x : Cell) : Cell :=
  match x with
  | none => none
  | some (CVal.n q) => some (CVal.n q)
  | some (CVal.s str) => (parseNum str).map CVal.n
  | some (CVal.d _ _ _) => none

/-- Model of `pd.to_datetime(errors='coerce')` on one combined cell: dates
are unchanged, anything else coerces to null (no other value kinds reach
the date column in the pipeline). -/
def toDateCVal (x : Cell) : Cell :=
  match x with
  | some (CVal.d y m d) => some (CVal.d y m d)
  | _ => none

/-- Type coercion of one standardized row against the final column names
(source lines 251-260); the column names are pairwise distinct, so the
per-label loops of the source act position-wise. -/
def coerceCombinedRow (cols : List (List Char)) (r : List Cell) : List Cell :=
  (cols.zip r).map (fun pc =>
    if combineNumericCols.contains pc.1 then toNumericCVal pc.2
    else if pc.1 = ("Report_Date".toList) then toDateCVal pc.2
    else pc.2)

/-- Combination of the accumulated tables (source lines 224-273):
standardise to the union schema minus the denylist, concatenate, rename
`Population`, coerce the numeric and date columns, sort by
(report date, prison name) and drop duplicate rows. -/
def combineCore (dfs : List Table) : Table :=
  let stdCols := standardColumnsOf dfs
  let rows0 := dfs.flatMap (fun t => t.rows.map (standardizeRow stdCols t))
  let cols1 := renamePopulation stdCols
  let rows1 := rows0.map (coerceCombinedRow cols1)
  let rows2 := sortRowsBy (rowLeB cols1) rows1
  let rows3 := dropDuplicates rows2
  ⟨cols1, rows3⟩

/-- Embedding of `combine_prison_data` (source lines 130-281): the corpus
walk is modelled by the ordered list of per-file outcomes; the run fails
exactly when no file yields usable data (source lines 220-221). -/
def combine_prison_data (files : List FileOutcome) : Except Unit Table :=
  let dfs := collectUsable files
  if dfs.isEmpty then Except.error () else Except.ok (combineCore dfs)

theorem collectUsable_none (fo : FileOutcome) (rest : List FileOutcome)
    (hfoe : fo.extracted = none) :
    collectUsable (fo :: rest) = collectUsable rest := by
  simp only [collectUsable, hfoe]

theorem collectUsable_skip (fo : FileOutcome) (rest : List FileOutcome)
    (t0 : Table) (hfoe : fo.extracted = some t0) (hu : usable t0 = false) :
    collectUsable (fo :: rest) = collectUsable rest := by
  simp only [collectUsable, hfoe]
  rw [if_neg (by rw [hu]; simp)]

theorem collectUsable_keep (fo : FileOutcome) (rest : List FileOutcome)
    (t0 : Table) (hfoe : fo.extracted = some t0) (hu : usable t0 = true) :
    collectUsable (fo :: rest) =
      ensureDate t0 fo.fallbackDate :: collectUsable rest := by
  simp only [collectUsable, hfoe]
  rw [if_pos hu]

theorem collectUsable_eq_nil_iff (files : List FileOutcome) :
    collectUsable files = [] ↔
      ∀ fo ∈ files, ∀ t, fo.extracted = some t → usable t = false := by
  induction files with
  | nil => simp [collectUsable]
  | cons fo rest ih =>
    rcases hfoe : fo.extracted with _ | t0
    · rw [collectUsable_none fo rest hfoe, ih]
      constructor
      · intro h fo' hfo' t ht
        rcases List.mem_cons.mp hfo' with rfl | hmem
        · rw [hfoe] at ht; exact absurd ht (by simp)
        · exact h fo' hmem t ht
      · intro h fo' hm t ht
        exact h fo' (List.mem_cons_of_mem _ hm) t ht
    · by_cases hu : usable t0 = true
      · rw [collectUsable_keep fo rest t0 hfoe hu]
        constructor
        · intro h; exact absurd h (by simp)
        · intro h
          have h2 := h fo (List.mem_cons_self _ _) t0 hfoe
          rw [hu] at h2
          exact absurd h2 (by simp)
      · have hu' : usable t0 = false := Bool.not_eq_true _ |>.mp hu
        rw [collectUsable_skip fo rest t0 hfoe hu', ih]
        constructor
        · intro h fo' hfo' t ht
          rcases List.mem_cons.mp hfo' with rfl | hmem
          · rw [hfoe] at ht
            cases ht
            exact hu'
          · exact h fo' hmem t ht
        · intro h fo' hm t ht
          exact h fo' (List.mem_cons_of_mem _ hm) t ht

theorem mem_collectUsable (files : List FileOutcome) (fo : FileOutcome)
    (t : Table) (hfo : fo ∈ files) (ht : fo.extracted = some t)
    (hu : usable t = true) :
    ensureDate t fo.fallbackDate ∈ collectUsable files := by
  induction files with
  | nil => cases hfo
  | cons fo0 rest ih =>
    rcases List.mem_cons.mp hfo with rfl | hmem
    · rw [collectUsable_keep fo rest t ht hu]
      exact List.mem_cons_self _ _
    · rcases hfoe : fo0.extracted with _ | t0
      · rw [collectUsable_none fo0 rest hfoe]
        exact ih hmem
      · by_cases hu0 : usable t0 = true
        · rw [collectUsable_keep fo0 rest t0 hfoe hu0]
          exact List.mem_cons_of_mem _ (ih hmem)
        · rw [collectUsable_skip fo0 rest t0 hfoe
            (Bool.not_eq_true _ |>.mp hu0)]
          exact ih hmem

theorem mem_combineCore_rows (dfs : List Table) (t : Table) (r : List Cell)
    (ht : t ∈ dfs) (hr : r ∈ t.rows) :
    coerceCombinedRow (combineCore dfs).cols
        (standardizeRow (standardColumnsOf dfs) t r) ∈ (combineCore dfs).rows := by
  unfold combineCore
  dsimp only
  rw [mem_dropDuplicates, mem_sortRowsBy]
  exact List.mem_map_of_mem _ (List.mem_flatMap.mpr ⟨t, ht, List.mem_map_of_mem _ hr⟩)

/-- C5: the corpus combiner raises exactly when no file in the corpus yields
a usable (non-empty, facility-name-bearing) table; and for every usable
file, each of its rows — standardized to the run's column set and coerced —
appears in the returned master table, regardless of any other file
failing. -/
theorem c5_combine_corpus (files : List FileOutcome) :
    (combine_prison_data files = Except.error () ↔
      ∀ fo ∈ files, ∀ t, fo.extracted = some t → usable t = false) ∧
    (∀ fo ∈ files, ∀ t, fo.extracted = some t → usable t = true →
      ∀ r ∈ (ensureDate t fo.fallbackDate).rows,
        ∃ tbl, combine_prison_data files = Except.ok tbl ∧
          coerceCombinedRow tbl.cols
              (standardizeRow (standardColumnsOf (collectUsable files))
                (ensureDate t fo.fallbackDate) r) ∈ tbl.rows) := by
  constructor
  · unfold combine_prison_data
    dsimp only
    by_cases h : (collectUsable files).isEmpty = true
    · rw [if_pos (by simp [h])]
      constructor
      · intro _
        exact (collectUsable_eq_nil_iff files).mp (List.isEmpty_iff.mp h)
      · intro _; rfl
    · rw [if_neg (by simp [h])]
      constructor
      · intro hcon; exact absurd hcon (by simp)
      · intro hall
        have := (collectUsable_eq_nil_iff files).mpr hall
        exact absurd (by rw [this]; rfl) h
  · intro fo hfo t ht hu r hr
    have hmem := mem_collectUsable files fo t hfo ht hu
    have hne : (collectUsable files).isEmpty = false := by
      cases hcc : collectUsable files with
      | nil => rw [hcc] at hmem; cases hmem
      | cons a l => rfl
    refine ⟨combineCore (collectUsable files), ?_, ?_⟩
    · unfold combine_prison_data
      dsimp only
      rw [if_neg (by simp [hne])]
    · exact mem_combineCore_rows (collectUsable files) _ r hmem hr

/-- A table from one valid file of the witness corpus. -/
def tableA : Table :=
  ⟨["Prison Name".toList, "Baseline CNA".toList, "Report_Date".toList],
   [[some (CVal.s ("Alpha".toList)), some (CVal.n 100), some (CVal.d 2022 8 31)]]⟩

/-- A table from a second valid file of the witness corpus, lacking the
date column. -/
def tableB : Table :=
  ⟨["Prison Name".toList, "In Use CNA".toList],
   [[some (CVal.s ("Beta".toList)), some (CVal.n 50)]]⟩

/-- Witness corpus for C5: two usable files around one failed extraction. -/
def c5files : List FileOutcome :=
  [⟨some tableA, none⟩, ⟨none, none⟩, ⟨some tableB, some (CVal.d 2022 7 31)⟩]

/-- The row of `tableB` after the combiner attached its fallback date. -/
def c5betaRow : List Cell :=
  [some (CVal.s ("Beta".toList)), some (CVal.n 50), some (CVal.d 2022 7 31)]

set_option maxRecDepth 16384 in
/-- Witness for C5: the second valid file's row reaches the master table
even though another file in the corpus failed. -/
theorem c5_combine_corpus_witness :
    ∃ tbl, combine_prison_data c5files = Except.ok tbl ∧
      coerceCombinedRow tbl.cols
          (standardizeRow (standardColumnsOf (collectUsable c5files))
            (ensureDate tableB (some (CVal.d 2022 7 31))) c5betaRow) ∈ tbl.rows :=
  (c5_combine_corpus c5files).2 ⟨some tableB, some (CVal.d 2022 7 31)⟩
    (by decide) tableB rfl (by decide) c5betaRow (by decide)

theorem renamePopulation_not_mem (cols : List (List Char))
    (h : ("Population".toList) ∉ cols) : renamePopulation cols = cols := by
  unfold renamePopulation
  rw [if_neg (fun hc => h hc.1)]

theorem cellAtCol_not_mem (cols : List (List Char)) (r : List Cell)
    (c : List Char) (h : c ∉ cols) : cellAtCol cols r c = none := by
  unfold cellAtCol
  rw [show List.indexOf? c cols = none from List.indexOf?_eq_none_iff.mpr
    (fun x hx => by
      simp only [beq_iff_eq]
      intro he
      exact h (he ▸ hx))]

theorem coerceCombinedRow_getD_none (cols : List (List Char)) (r : List Cell)
    (i : Nat) (hi : i < cols.length) (hr : i < r.length)
    (h : r.getD i none = none) :
    (coerceCombinedRow cols r).getD i none = none := by
  unfold coerceCombinedRow
  have hzlen : i < (cols.zip r).length := by
    rw [List.length_zip]
    omega
  have hmlen : i < ((cols.zip r).map (fun pc =>
      if combineNumericCols.contains pc.1 then toNumericCVal pc.2
      else if pc.1 = ("Report_Date".toList) then toDateCVal pc.2
      else pc.2)).length := by
    rw [List.length_map]
    exact hzlen
  rw [List.getD_eq_getElem _ _ hmlen, List.getElem_map, List.getElem_zip]
  rw [List.getD_eq_getElem _ _ hr] at h
  rw [h]
  dsimp only
  split
  · rfl
  · split <;> rfl

/-- C6: the master table's columns are exactly the union of the per-file
columns minus the two denylisted percentage columns; its rows are pairwise
distinct and sorted by the (report date, prison name) key; and every cell at
a column missing from the contributing file's table is the null marker, both
before and after the final type coercion (never a zero). -/
theorem c6_master_table (files : List FileOutcome) (tbl : Table)
    (hok : combine_prison_data files = Except.ok tbl)
    (hpop : ("Population".toList) ∉ columnsUnion (collectUsable files)) :
    tbl.cols = (columnsUnion (collectUsable files)).filter
        (fun c => !combineDenylist.contains c) ∧
    tbl.rows.Nodup ∧
    List.Pairwise (fun a b => rowLeB tbl.cols a b = true) tbl.rows ∧
    (∀ t ∈ collectUsable files, ∀ r ∈ t.rows, ∀ i c,
      i < (standardColumnsOf (collectUsable files)).length →
      (standardColumnsOf (collectUsable files)).getD i [] = c →
      c ∉ t.cols →
      (coerceCombinedRow tbl.cols
        (standardizeRow (standardColumnsOf (collectUsable files)) t r)).getD i
          none = none) := by
  have hpop' : ("Population".toList) ∉ standardColumnsOf (collectUsable files) := by
    intro hc
    exact hpop (List.mem_filter.mp hc).1
  have htbl : tbl = combineCore (collectUsable files) := by
    unfold combine_prison_data at hok
    dsimp only at hok
    by_cases h : (collectUsable files).isEmpty = true
    · rw [if_pos (by simp [h])] at hok
      exact absurd hok (by simp)
    · rw [if_neg (by simp [h])] at hok
      exact (Except.ok.injEq _ _ |>.mp hok).symm
  subst htbl
  have hcols : (combineCore (collectUsable files)).cols =
      standardColumnsOf (collectUsable files) := by
    show renamePopulation (standardColumnsOf (collectUsable files)) = _
    exact renamePopulation_not_mem _ hpop'
  refine ⟨hcols, ?_, ?_, ?_⟩
  · exact nodup_dropDuplicates _
  · show List.Pairwise _ (dropDuplicates (sortRowsBy _ _))
    exact List.Pairwise.sublist (dropDupsAux_sublist [] _)
      (pairwise_sortRowsBy _ (rowLeB_total _) (rowLeB_trans _) _)
  · intro t htm r hrm i c hi hc hcnot
    have hstdlen : i < (standardizeRow (standardColumnsOf (collectUsable files)) t r).length := by
      unfold standardizeRow
      rw [List.length_map]
      exact hi
    have hcolslen : i < (combineCore (collectUsable files)).cols.length := by
      rw [hcols]
      exact hi
    apply coerceCombinedRow_getD_none _ _ _ hcolslen hstdlen
    unfold standardizeRow
    have hmlen : i < ((standardColumnsOf (collectUsable files)).map
        (fun c => cellAtCol t.cols r c)).length := by
      rw [List.length_map]
      exact hi
    rw [List.getD_eq_getElem _ _ hmlen, List.getElem_map]
    rw [List.getD_eq_getElem _ _ hi] at hc
    rw [hc]
    exact cellAtCol_not_mem t.cols r c hcnot

/-- Witness corpus for C6: a duplicated valid file plus a different one,
exercising the deduplication. -/
def c6files : List FileOutcome :=
  [⟨some tableA, none⟩, ⟨some tableA, none⟩,
   ⟨some tableB, some (CVal.d 2022 7 31)⟩]

/-- The master table of the C6 witness corpus. -/
def c6tbl : Table := combineCore (collectUsable c6files)

set_option maxRecDepth 16384 in
/-- Witness for C6 at the concrete corpus: the column set and row
distinctness of the combined table. -/
theorem c6_master_table_witness :
    c6tbl.cols = (columnsUnion (collectUsable c6files)).filter
        (fun c => !combineDenylist.contains c) ∧ c6tbl.rows.Nodup :=
  ⟨(c6_master_table c6files c6tbl rfl (by decide)).1,
   (c6_master_table c6files c6tbl rfl (by decide)).2.1⟩

/-! ## DOC extraction entry (`extract_data_from_doc`, lines 1321-1541) -/

/-- Embedding of `is_temp_file` (source lines 1321-1332): the basename
starts with the lock/temp marker. -/
def is_temp_file (basename : List Char) : Bool :=
  ("~$".toList).isPrefixOf basename

/-- Range check of one metric token of the structural validator (source
lines 1570-1584): a token that parses to a number after removing commas and
percent signs must lie in the interval from 0 to 10000; unparseable tokens
pass. -/
def validTokenValue (tok : List Char) : Bool :=
  match parseNum (cleanPct tok) with
  | some q => decide (0 ≤ q) && decide (q ≤ 10000)
  | none => true

/-- Embedding of `validate_prison_data` (source lines 1544-1586). -/
def validate_prison_data (data : List (List (List Char))) : Bool :=
  if data.length < 2 then false
  else if data.any (fun r => r.length < 2 || 10 < r.length) then false
  else if !(data.all (fun r => (r.getD 0 []).any Char.isAlpha)) then false
  else if !(data.all (fun r => (r.drop 1).all validTokenValue)) then false
  else true

/-- Text-to-table part of `extract_data_from_doc` on the non-Windows path
(source lines 1370-1536): the line loop and assembly are the same code as
the RTF variant, with the Text Validity Oracle in front and the structural
validator before assembly.  The Windows-only DOCX-conversion retry (source
lines 1358-1368) is platform-gated and not modelled. -/
def docProcess (text fnameLower : List Char) : Table :=
  if text.isEmpty then Table.empty
  else if is_valid_doc_text text = false then Table.empty
  else if (rtfLoop rtfInit (splitLines text)).data.isEmpty then Table.empty
  else if validate_prison_data (rtfLoop rtfInit (splitLines text)).data = false then
    Table.empty
  else
    ⟨rtfFinalCols text fnameLower,
     filterPrisonRows (rtfFinalCols text fnameLower)
       (rtfAssembledRows text fnameLower)⟩

/-- Embedding of `extract_data_from_doc` (source lines 1335-1541):
`basename` is the file's basename, `ownText` the text that `doc_to_text`
would recover from the file itself, and `siblingText` the text of the
non-temp sibling file when one exists in the directory.  The source returns
an empty frame for temp files before any text recovery; the sibling
parameter exists to express the claim about it and is — like in the
source's pipeline path — never consulted. -/
def extract_data_from_doc (basename ownText : List Char)
    (siblingText : Option (List Char)) : Table :=
  if is_temp_file basename then Table.empty
  else docProcess ownText (lowerList basename)

/-- C9 amended: a legacy-binary file whose basename starts with the temp
marker is skipped entirely by `extract_data_from_doc` — the result is the
empty table for every possible own text and regardless of whether a usable
sibling file exists. -/
theorem c9_temp_file_skip (basename ownText : List Char)
    (siblingText : Option (List Char)) (h : is_temp_file basename = true) :
    extract_data_from_doc basename ownText siblingText = Table.empty := by
  unfold extract_data_from_doc
  rw [if_pos h]

/-- Recovered text of the sibling document of the C9 counterexample: a
fully parseable two-row table. -/
def c9goodText : List Char :=
  "Prison Name  Baseline CNA  In Use CNA  Operational Capacity  Population *  % Pop to In Use CNA  % Accommodation Available\nAlpha 100 200 300 400 50% 60%\nBeta 100 200 300 400 50% 60%".toList

set_option maxRecDepth 16384 in
/-- C9 counterexample: for the temp file, the extraction returns the empty
table even though the non-temp sibling exists and its content parses to a
non-empty table — the sibling is never located or used by
`extract_data_from_doc`. -/
theorem c9_counterexample :
    is_temp_file ("~$report.doc".toList) = true ∧
      extract_data_from_doc ("~$report.doc".toList) [] (some c9goodText) =
        Table.empty ∧
      docProcess c9goodText (lowerList ("report.doc".toList)) ≠ Table.empty := by
  refine ⟨by decide, by decide, by decide⟩

set_option maxRecDepth 16384 in
/-- Witness for C9's amended theorem at the concrete temp basename. -/
theorem c9_temp_file_skip_witness :
    extract_data_from_doc ("~$report.doc".toList) [] (some c9goodText) =
      Table.empty :=
  c9_temp_file_skip ("~$report.doc".toList) [] (some c9goodText) (by decide)
